import Mathlib

/-!
Verification development for the CryptoTrackerAPI market-data cache
(`src/main.cpp`).  The C++ program is shallowly embedded: `std::unordered_map`
becomes an association list with last-writer-wins insertion, JSON documents
become an inductive `Json` type (numbers carried as exact rationals), a fetched
HTTP body becomes `Option (Except Unit Json)` (`none` models an empty response
after a transport failure, `Except.error` models a body on which `json::parse`
throws), and each method of `CryptoTracker` becomes a pure function on an
explicit `TrackerState`.
-/

/-- JSON values as delivered by the `nlohmann::json` library: numbers are kept
as exact rationals (the claims only evaluate them at exactly representable
doubles), objects as ordered field lists with unique keys. -/
inductive Json where
  | jnull : Json
  | jbool : Bool → Json
  | jnum : ℚ → Json
  | jstr : String → Json
  | jarr : List Json → Json
  | jobj : List (String × Json) → Json

namespace Json

/-- `is_number()` of nlohmann json (true for ints and floats, not bools). -/
def isNum : Json → Bool
  | jnum _ => true
  | _ => false

/-- `is_string()` of nlohmann json. -/
def isStr : Json → Bool
  | jstr _ => true
  | _ => false

/-- `is_object()` of nlohmann json. -/
def isObj : Json → Bool
  | jobj _ => true
  | _ => false

end Json

/-- Lookup in an association list modelling `unordered_map::find` /
`operator[]` on a present key: the first (unique) binding of the key. -/
def alistFind {V : Type} (m : List (String × V)) (k : String) : Option V :=
  match m with
  | [] => none
  | (k1, v1) :: rest => if k1 = k then some v1 else alistFind rest k

/-- Insertion modelling `unordered_map::operator[] = v`: overwrite the
existing binding of the key if present, otherwise append a fresh one. -/
def alistInsert {V : Type} (m : List (String × V)) (k : String) (v : V) :
    List (String × V) :=
  match m with
  | [] => [(k, v)]
  | (k1, v1) :: rest =>
      if k1 = k then (k1, v) :: rest else (k1, v1) :: alistInsert rest k v

/-- Truncation toward zero, modelling C++ `static_cast` from `double` to an
integer type (used by nlohmann `get` for integral targets). -/
def ratTrunc (q : ℚ) : ℤ :=
  if 0 ≤ q.num then ⌊q⌋ else ⌈q⌉

/-- Decimal rendering of a natural number (bounded fold so that the kernel
can evaluate it; the rendered values stay far below 10^20). -/
def natRepr (n : Nat) : String :=
  match (((List.range 20).reverse).map fun i => n / 10 ^ i % 10).dropWhile
      (fun d => d = 0) with
  | [] => "0"
  | ds => String.mk (ds.map Nat.digitChar)

/-- Left-pad a decimal digit string with zeros to width 6. -/
def pad6 (s : String) : String :=
  String.mk (List.replicate (6 - s.length) '0') ++ s

/-- Fixed six-decimal rendering of a non-negative rational, as produced by
C++ `std::to_string(double)` (`%f` formatting, round to nearest):
`floor(q * 10^6 + 1/2)` computed on the numerator and denominator, then
split into integer and six-digit fractional parts. -/
def fixed6 (q : ℚ) : String :=
  let scaled := (Int.fdiv (2 * q.num * 1000000 + q.den) (2 * q.den)).toNat
  natRepr (scaled / 1000000) ++ "." ++ pad6 (natRepr (scaled % 1000000))

/-- `std::to_string(double)`: sign followed by the fixed six-decimal
rendering of the magnitude. -/
def cppToStringDouble (q : ℚ) : String :=
  if q.num < 0 then "-" ++ fixed6 (-q) else fixed6 q

/-- `MarketDetails` record from `src/main.cpp` (doubles as exact rationals).
`max_leverage` is declared in the C++ struct but never read by the parser. -/
structure MarketDetails where
  coindcx_name : String
  base_currency_short_name : String
  target_currency_short_name : String
  target_currency_name : String
  base_currency_name : String
  min_quantity : ℚ
  max_quantity : ℚ
  min_price : ℚ
  max_price : ℚ
  min_notional : ℚ
  base_currency_precision : ℤ
  target_currency_precision : ℤ
  step : ℚ
  order_types : List String
  symbol : String
  ecode : String
  max_leverage : String
  pair : String
  status : String
  deriving DecidableEq, Repr

/-- `TickerDetails` record from `src/main.cpp`; `default` is its default
constructor (change "0", timestamp 0, all other fields empty). -/
structure TickerDetails where
  market : String
  change_24_hour : String
  high : String
  low : String
  volume : String
  last_price : String
  bid : String
  ask : String
  timestamp : ℤ
  deriving DecidableEq, Repr

def TickerDetails.default : TickerDetails :=
  { market := "", change_24_hour := "0", high := "", low := "", volume := "",
    last_price := "", bid := "", ask := "", timestamp := 0 }

/-- `OrderBook` from `src/main.cpp`: two price→quantity maps. -/
structure OrderBook where
  bids : List (String × String)
  asks : List (String × String)
  deriving DecidableEq, Repr

def OrderBook.empty : OrderBook := { bids := [], asks := [] }

/-- The four in-memory stores owned by `CryptoTracker`. -/
structure TrackerState where
  market_details_map : List (String × MarketDetails)
  ticker_details_map : List (String × TickerDetails)
  order_book_map : List (String × OrderBook)
  market_pairs_map : List (String × String)
  deriving DecidableEq, Repr

def TrackerState.empty : TrackerState :=
  { market_details_map := [], ticker_details_map := [], order_book_map := [],
    market_pairs_map := [] }

/-- Range-based `for` over an nlohmann json value: arrays iterate their
elements, objects iterate their values, `null` is empty, any other primitive
iterates once over itself. -/
def jsonItems : Json → List Json
  | Json.jarr l => l
  | Json.jobj fs => fs.map Prod.snd
  | Json.jnull => []
  | j => [j]

/-- `item.contains(key)` plus `item[key]`: `none` when the value is not an
object or lacks the key. -/
def getField (j : Json) (k : String) : Option Json :=
  match j with
  | Json.jobj fs => alistFind fs k
  | _ => none

/-- Implicit conversion of `item[key]` to `std::string`: throws (models both
the missing-key access and the `type_error` throw) unless the field is a
string. -/
def getStrE (j : Json) (k : String) : Except Unit String :=
  match getField j k with
  | some (Json.jstr s) => Except.ok s
  | _ => Except.error ()

/-- Implicit conversion of `item[key]` to `double` / `float`. -/
def getNumE (j : Json) (k : String) : Except Unit ℚ :=
  match getField j k with
  | some (Json.jnum q) => Except.ok q
  | _ => Except.error ()

/-- Implicit conversion of `item[key]` to `int` (any json number converts,
floats by truncation). -/
def getIntE (j : Json) (k : String) : Except Unit ℤ :=
  match getField j k with
  | some (Json.jnum q) => Except.ok (ratTrunc q)
  | _ => Except.error ()

/-- `item[key].get<std::vector<std::string>>()`: requires an array whose
elements are all strings. -/
def getStrListE (j : Json) (k : String) : Except Unit (List String) :=
  match getField j k with
  | some (Json.jarr l) =>
      l.mapM fun x =>
        match x with
        | Json.jstr s => Except.ok s
        | _ => (Except.error () : Except Unit String)
  | _ => Except.error ()

/-- Exception-propagating loop body sequencing: the C++ `for` building the
result vector stops at the first thrown conversion. -/
def mapExcept {α β : Type} (f : α → Except Unit β) : List α → Except Unit (List β)
  | [] => Except.ok []
  | x :: xs =>
      match f x with
      | Except.error e => Except.error e
      | Except.ok y =>
          match mapExcept f xs with
          | Except.error e => Except.error e
          | Except.ok ys => Except.ok (y :: ys)

/-- Exception propagation of one C++ statement: if the right-hand side threw,
the rest of the loop body is skipped. -/
def exBind {α β : Type} (x : Except Unit α) (f : α → Except Unit β) :
    Except Unit β :=
  match x with
  | Except.error e => Except.error e
  | Except.ok a => f a

/-- One iteration of the loop body of `CryptoTracker::parseMarketDetails`:
every field is required, any missing or mistyped field throws. -/
def parseMarketItem (item : Json) : Except Unit MarketDetails :=
  exBind (getStrE item "coindcx_name") fun cn =>
  exBind (getStrE item "base_currency_short_name") fun bcs =>
  exBind (getStrE item "target_currency_short_name") fun tcs =>
  exBind (getStrE item "target_currency_name") fun tcn =>
  exBind (getStrE item "base_currency_name") fun bcn =>
  exBind (getNumE item "min_quantity") fun minq =>
  exBind (getNumE item "max_quantity") fun maxq =>
  exBind (getNumE item "min_price") fun minp =>
  exBind (getNumE item "max_price") fun maxp =>
  exBind (getNumE item "min_notional") fun minn =>
  exBind (getIntE item "base_currency_precision") fun bcp =>
  exBind (getIntE item "target_currency_precision") fun tcp =>
  exBind (getNumE item "step") fun stp =>
  exBind (getStrListE item "order_types") fun ots =>
  exBind (getStrE item "symbol") fun sym =>
  exBind (getStrE item "ecode") fun ec =>
  exBind (getStrE item "pair") fun pr =>
  exBind (getStrE item "status") fun st =>
  Except.ok
    { coindcx_name := cn, base_currency_short_name := bcs,
      target_currency_short_name := tcs, target_currency_name := tcn,
      base_currency_name := bcn, min_quantity := minq, max_quantity := maxq,
      min_price := minp, max_price := maxp, min_notional := minn,
      base_currency_precision := bcp, target_currency_precision := tcp,
      step := stp, order_types := ots, symbol := sym, ecode := ec,
      max_leverage := "", pair := pr, status := st }

/-- `CryptoTracker::parseMarketDetails` applied to an already-decoded
document: one thrown field conversion fails the whole batch. -/
def parseMarketDetails (j : Json) : Except Unit (List MarketDetails) :=
  mapExcept parseMarketItem (jsonItems j)

/-- The guarded field pattern of `CryptoTracker::parseTickerDetails`:
`contains` + `is_number` → `std::to_string(get<double>())`, else
`is_string` → the string itself, else the default is left in place. -/
def tickerStrField (item : Json) (key dflt : String) : String :=
  match getField item key with
  | some (Json.jnum q) => cppToStringDouble q
  | some (Json.jstr s) => s
  | _ => dflt

/-- One iteration of the loop body of `CryptoTracker::parseTickerDetails`:
each field is optional and type-checked, defaults are kept otherwise.
The `market` field only accepts a string; `timestamp` only a number. -/
def parseTickerItem (item : Json) : TickerDetails :=
  { market :=
      match getField item "market" with
      | some (Json.jstr s) => s
      | _ => "",
    change_24_hour := tickerStrField item "change_24_hour" "0",
    high := tickerStrField item "high" "",
    low := tickerStrField item "low" "",
    volume := tickerStrField item "volume" "",
    last_price := tickerStrField item "last_price" "",
    bid := tickerStrField item "bid" "",
    ask := tickerStrField item "ask" "",
    timestamp :=
      match getField item "timestamp" with
      | some (Json.jnum q) => ratTrunc q
      | _ => 0 }

/-- `CryptoTracker::parseTickerDetails` applied to an already-decoded
document: every item yields a record, nothing throws past the decode. -/
def parseTickerDetails (j : Json) : List TickerDetails :=
  (jsonItems j).map parseTickerItem

/-- The per-side loop of `CryptoTracker::parseOrderBook`:
`quantity.get<std::string>()` throws on a non-string value, aborting the loop
with the entries inserted so far (`true` = an exception was thrown). -/
def collectSide (fields : List (String × Json)) (acc : List (String × String)) :
    List (String × String) × Bool :=
  match fields with
  | [] => (acc, false)
  | (price, q) :: rest =>
      match q with
      | Json.jstr s => collectSide rest (alistInsert acc price s)
      | _ => (acc, true)

/-- One side of `CryptoTracker::parseOrderBook`: the `contains` +
`is_object()` guard followed by the insertion loop; a missing or non-object
side is skipped, yielding an empty map without error. -/
def parseSide (o : Option Json) : List (String × String) × Bool :=
  match o with
  | some (Json.jobj fs) => collectSide fs []
  | _ => ([], false)

/-- Whether a side's present values are all strings (so that no
`get<std::string>` conversion throws while collecting it). -/
def sideClean : Option Json → Bool
  | some (Json.jobj fs) => fs.all fun p => p.2.isStr
  | _ => true

/-- `CryptoTracker::parseOrderBook` on a raw body: a body on which
`json::parse` throws is caught and yields an empty book; a missing or
non-object side is skipped; a thrown value conversion is caught, keeping what
was already inserted and skipping the rest of the try block.  The boolean
records whether the catch block ran (the "Error parsing order book JSON"
report). -/
def parseOrderBook (raw : Except Unit Json) : OrderBook × Bool :=
  match raw with
  | Except.error _ => (OrderBook.empty, true)
  | Except.ok j =>
      let bres := parseSide (getField j "bids")
      if bres.2 then ({ bids := bres.1, asks := [] }, true)
      else
        let ares := parseSide (getField j "asks")
        ({ bids := bres.1, asks := ares.1 }, ares.2)

/-- `CryptoTracker::updateMarketDetailsMap`: insert every parsed record into
the market store and the pair index, keyed by `coindcx_name`. -/
def updateMarketDetailsMap (ds : List MarketDetails) (s : TrackerState) :
    TrackerState :=
  ds.foldl
    (fun st d =>
      { st with
        market_details_map := alistInsert st.market_details_map d.coindcx_name d,
        market_pairs_map := alistInsert st.market_pairs_map d.coindcx_name d.pair })
    s

/-- `CryptoTracker::updateTickerDetailsMap`: insert every parsed record keyed
by its market name, skipping the `"BTCINR_insta"` market. -/
def updateTickerDetailsMap (ds : List TickerDetails) (s : TrackerState) :
    TrackerState :=
  ds.foldl
    (fun st d =>
      if d.market = "BTCINR_insta" then st
      else
        { st with
          ticker_details_map := alistInsert st.ticker_details_map d.market d })
    s

/-- `CryptoTracker::getAllPairs`: the key list of the pair index. -/
def getAllPairs (s : TrackerState) : List String :=
  s.market_pairs_map.map Prod.fst

/-- `CryptoTracker::getAllTickerData`: the value list of the ticker store. -/
def getAllTickerData (s : TrackerState) : List TickerDetails :=
  s.ticker_details_map.map Prod.snd

/-- `CryptoTracker::refreshMarketData` with the fetch outcome made explicit:
`none` = empty body (transport failure), `some (Except.error ())` = body on
which `json::parse` throws, `some (Except.ok j)` = decoded document.  A
thrown parse propagates out with the stores untouched (the bulk update only
runs after the whole batch parsed). -/
def refreshMarketData (fetched : Option (Except Unit Json)) (s : TrackerState) :
    TrackerState :=
  match fetched with
  | none => s
  | some (Except.error _) => s
  | some (Except.ok j) =>
      match parseMarketDetails j with
      | Except.error _ => s
      | Except.ok ds => updateMarketDetailsMap ds s

/-- `CryptoTracker::refreshTickerData`, fetch outcome explicit as in
`refreshMarketData`. -/
def refreshTickerData (fetched : Option (Except Unit Json)) (s : TrackerState) :
    TrackerState :=
  match fetched with
  | none => s
  | some (Except.error _) => s
  | some (Except.ok j) => updateTickerDetailsMap (parseTickerDetails j) s

/-- `CryptoTracker::getOrderBook`: on a non-empty body the parsed book —
empty or partial when parsing failed — is unconditionally written for the
pair. -/
def getOrderBook (pair : String) (fetched : Option (Except Unit Json))
    (s : TrackerState) : TrackerState :=
  match fetched with
  | none => s
  | some raw =>
      { s with
        order_book_map := alistInsert s.order_book_map pair (parseOrderBook raw).1 }

/-- `CryptoTracker::convertToJson`: a string map rendered as a json object. -/
def convertToJson (m : List (String × String)) : Json :=
  Json.jobj (m.map fun p => (p.1, Json.jstr p.2))

/-- The `market_details` object attached by `CryptoTracker::addMarketDetails`. -/
def marketDetailsJson (md : MarketDetails) : Json :=
  Json.jobj
    [("base_currency", Json.jstr md.base_currency_short_name),
     ("target_currency", Json.jstr md.target_currency_short_name),
     ("min_quantity", Json.jnum md.min_quantity),
     ("max_quantity", Json.jnum md.max_quantity),
     ("min_price", Json.jnum md.min_price),
     ("max_price", Json.jnum md.max_price)]

/-- The `ticker_details` object `CryptoTracker::addTickerDetails` would
attach.  The method exists in the source but is never called. -/
def tickerDetailsJson (td : TickerDetails) : Json :=
  Json.jobj
    [("change_24_hour", Json.jstr td.change_24_hour),
     ("last_price", Json.jstr td.last_price),
     ("bid", Json.jstr td.bid),
     ("ask", Json.jstr td.ask),
     ("high", Json.jstr td.high),
     ("low", Json.jstr td.low),
     ("volume", Json.jstr td.volume),
     ("timestamp", Json.jnum td.timestamp)]

/-- `CryptoTracker::handleDataRequest`.  `fetched` is the outcome of the
on-demand order-book fetch, `now` the request-timestamp clock read.  An
unknown market name skips the whole `if` body, returning the
default-constructed json (null).  Reading `order_book_map[pair]` with
`operator[]` default-inserts an empty book if the fetch stored nothing. -/
def handleDataRequest (market_name : String)
    (fetched : Option (Except Unit Json)) (now : ℚ) (s : TrackerState) :
    Json × TrackerState :=
  match alistFind s.market_pairs_map market_name with
  | none => (Json.jnull, s)
  | some pair =>
      let s1 := getOrderBook pair fetched s
      let bk :=
        match alistFind s1.order_book_map pair with
        | some b => (b, s1.order_book_map)
        | none => (OrderBook.empty, alistInsert s1.order_book_map pair OrderBook.empty)
      let s2 := { s1 with order_book_map := bk.2 }
      let base :=
        [("pair", Json.jstr market_name),
         ("request_timestamp", Json.jnum now),
         ("order_book",
          Json.jobj
            [("bids", convertToJson bk.1.bids), ("asks", convertToJson bk.1.asks)])]
      let fields :=
        match alistFind s2.market_details_map market_name with
        | some md => base ++ [("market_details", marketDetailsJson md)]
        | none => base
      (Json.jobj fields, s2)

/-- Whether a response json object carries a given key. -/
def jsonHasKey (j : Json) (k : String) : Bool :=
  (getField j k).isSome

/-- The loop body of the thread started by
`CryptoTracker::startBackgroundRefresh`: it calls `refreshTickerData` and
nothing else (the sleep and the catch-and-continue have no store effect). -/
def backgroundRefreshIteration (tickerFetched : Option (Except Unit Json))
    (s : TrackerState) : TrackerState :=
  refreshTickerData tickerFetched s

/-- Modelled from the spec: the periodic cycle of §4.3, which "fetches the
market-detail document, parses, on success bulk-replaces Market Store and
PairIndex; fetches the ticker document, parses, on success bulk-replaces
Ticker Store", the two fetches independent.  Used only to compare the spec's
claimed iteration against the source's actual loop body. -/
def backgroundRefreshIterationSpec (marketFetched tickerFetched : Option (Except Unit Json))
    (s : TrackerState) : TrackerState :=
  refreshTickerData tickerFetched (refreshMarketData marketFetched s)

/-- The `coindcx_name` string a document item carries, if any. -/
def itemCoindcxName (item : Json) : Option String :=
  match getField item "coindcx_name" with
  | some (Json.jstr s) => some s
  | _ => none

/-- The canonical pair names present in a market-detail document. -/
def docPairNames (j : Json) : List String :=
  (jsonItems j).filterMap itemCoindcxName

/-- The seven ticker fields of `parseTickerDetails` that share the
number-or-string normalization pattern. -/
inductive TickerField where
  | change24 : TickerField
  | high : TickerField
  | low : TickerField
  | volume : TickerField
  | lastPrice : TickerField
  | bid : TickerField
  | ask : TickerField
  deriving DecidableEq, Repr

def tickerFieldKey : TickerField → String
  | TickerField.change24 => "change_24_hour"
  | TickerField.high => "high"
  | TickerField.low => "low"
  | TickerField.volume => "volume"
  | TickerField.lastPrice => "last_price"
  | TickerField.bid => "bid"
  | TickerField.ask => "ask"

def tickerFieldProj : TickerField → TickerDetails → String
  | TickerField.change24 => TickerDetails.change_24_hour
  | TickerField.high => TickerDetails.high
  | TickerField.low => TickerDetails.low
  | TickerField.volume => TickerDetails.volume
  | TickerField.lastPrice => TickerDetails.last_price
  | TickerField.bid => TickerDetails.bid
  | TickerField.ask => TickerDetails.ask

def tickerFieldDflt : TickerField → String
  | TickerField.change24 => "0"
  | _ => ""

/-- The exact JSON number 1234.5 (numerator 2469, denominator 2), given as a
normalized structure literal so that the kernel can evaluate with it. -/
def q1234p5 : ℚ := ⟨2469, 2, by decide, by decide⟩

/-- A market-detail document item with every required field present. -/
def mktItemA : Json :=
  Json.jobj
    [("coindcx_name", Json.jstr "BTCINR"),
     ("base_currency_short_name", Json.jstr "INR"),
     ("target_currency_short_name", Json.jstr "BTC"),
     ("target_currency_name", Json.jstr "Bitcoin"),
     ("base_currency_name", Json.jstr "Indian Rupee"),
     ("min_quantity", Json.jnum 1),
     ("max_quantity", Json.jnum 1000),
     ("min_price", Json.jnum 1),
     ("max_price", Json.jnum 100000000),
     ("min_notional", Json.jnum 100),
     ("base_currency_precision", Json.jnum 2),
     ("target_currency_precision", Json.jnum 8),
     ("step", Json.jnum 1),
     ("order_types", Json.jarr [Json.jstr "limit_order"]),
     ("symbol", Json.jstr "BTCINR"),
     ("ecode", Json.jstr "I"),
     ("pair", Json.jstr "B-BTC_INR"),
     ("status", Json.jstr "active")]

/-- A valid one-item market-detail document. -/
def mktDocA : Json := Json.jarr [mktItemA]

/-- The record `parseMarketItem` produces from `mktItemA`. -/
def mdA : MarketDetails :=
  { coindcx_name := "BTCINR", base_currency_short_name := "INR",
    target_currency_short_name := "BTC", target_currency_name := "Bitcoin",
    base_currency_name := "Indian Rupee", min_quantity := 1,
    max_quantity := 1000, min_price := 1, max_price := 100000000,
    min_notional := 100, base_currency_precision := 2,
    target_currency_precision := 8, step := 1,
    order_types := ["limit_order"], symbol := "BTCINR", ecode := "I",
    max_leverage := "", pair := "B-BTC_INR", status := "active" }

/-- A market-detail item used for frame witnesses, keyed "ETHINR". -/
def mdSample : MarketDetails :=
  { mdA with coindcx_name := "ETHINR", target_currency_short_name := "ETH",
             target_currency_name := "Ethereum", symbol := "ETHINR",
             pair := "B-ETH_INR" }

/-- A fully populated ticker record for the "BTCINR" market. -/
def tdSample : TickerDetails :=
  { market := "BTCINR", change_24_hour := "1.5", high := "100", low := "90",
    volume := "10", last_price := "95", bid := "94", ask := "96",
    timestamp := 1700000000 }

/-- A ticker document item for the excluded insta-settlement market. -/
def instaItem : Json :=
  Json.jobj
    [("market", Json.jstr "BTCINR_insta"), ("last_price", Json.jstr "50")]

/-- A ticker document carrying the excluded insta-settlement market next to
an ordinary one. -/
def tickerDocInsta : Json :=
  Json.jarr
    [instaItem,
     Json.jobj [("market", Json.jstr "BTCINR"), ("last_price", Json.jstr "51")]]

/-- A ticker document whose `last_price` arrives as the JSON number 1234.5. -/
def tickNumDoc : Json :=
  Json.jarr
    [Json.jobj
      [("market", Json.jstr "BTCINR"), ("last_price", Json.jnum q1234p5)]]

/-- A ticker document whose `last_price` arrives as the string "1234.5". -/
def tickStrDoc : Json :=
  Json.jarr
    [Json.jobj
      [("market", Json.jstr "BTCINR"), ("last_price", Json.jstr "1234.5")]]

/-- A ticker document item whose fields carry wrong-typed values. -/
def wrongTypedItem : Json :=
  Json.jobj
    [("market", Json.jnum 5), ("bid", Json.jnull),
     ("timestamp", Json.jstr "x")]

/-- A well-formed order-book document lacking the `bids` key. -/
def obDocAsksOnly : Json :=
  Json.jobj [("asks", Json.jobj [("101", Json.jstr "2")])]

/-- A well-formed order-book document lacking the `asks` key. -/
def obDocBidsOnly : Json :=
  Json.jobj [("bids", Json.jobj [("100", Json.jstr "1")])]

/-- A well-formed order-book document with both sides present. -/
def obDocGood : Json :=
  Json.jobj
    [("bids", Json.jobj [("100", Json.jstr "1")]),
     ("asks", Json.jobj [("101", Json.jstr "2")])]

/-- An order book stored for the "B-BTC_INR" pair. -/
def obSample : OrderBook :=
  { bids := [("100", "1")], asks := [("101", "2")] }

/-- A market-detail document item missing every required field. -/
def badMktDoc : Json := Json.jarr [Json.jobj []]

/-- An empty ticker document (a successful fetch with no items). -/
def emptyTickerDoc : Json := Json.jarr []

/-- A populated state: one known market with detail, ticker and book. -/
def sSample : TrackerState :=
  { market_details_map := [("BTCINR", mdA)],
    ticker_details_map := [("BTCINR", tdSample)],
    order_book_map := [("B-BTC_INR", obSample)],
    market_pairs_map := [("BTCINR", "B-BTC_INR")] }

/-- A state where "BTCINR" is a known pair and its ticker is cached, but no
market detail is stored. -/
def sTickerOnly : TrackerState :=
  { market_details_map := [],
    ticker_details_map := [("BTCINR", tdSample)],
    order_book_map := [],
    market_pairs_map := [("BTCINR", "B-BTC_INR")] }

theorem alistFind_insert {V : Type} (m : List (String × V)) (k k2 : String)
    (v : V) :
    alistFind (alistInsert m k v) k2 = if k = k2 then some v else alistFind m k2 := by
  induction m with
  | nil =>
      by_cases h : k = k2 <;> simp [alistInsert, alistFind, h]
  | cons hd tl ih =>
      obtain ⟨k1, v1⟩ := hd
      by_cases h1 : k1 = k
      · subst h1
        by_cases h2 : k1 = k2 <;> simp [alistInsert, alistFind, h2]
      · by_cases h2 : k1 = k2
        · subst h2
          have hk : ¬ k = k1 := fun h => h1 h.symm
          simp [alistInsert, alistFind, h1, hk]
        · simp [alistInsert, alistFind, h1, h2, ih]

theorem alistFind_mem_keys {V : Type} (m : List (String × V)) (k : String) :
    k ∈ m.map Prod.fst ↔ (alistFind m k).isSome := by
  induction m with
  | nil => simp [alistFind]
  | cons hd tl ih =>
      obtain ⟨k1, v1⟩ := hd
      by_cases h : k1 = k
      · subst h
        simp [alistFind]
      · have h2 : ¬ k = k1 := fun hh => h hh.symm
        simp [alistFind, h, h2, ih]

theorem alistInsert_mem {V : Type} (m : List (String × V)) (k a : String)
    (v w : V) (hw : (a, w) ∈ alistInsert m k v) :
    (a = k ∧ w = v) ∨ (a, w) ∈ m := by
  induction m with
  | nil =>
      simp [alistInsert] at hw
      exact Or.inl hw
  | cons hd tl ih =>
      obtain ⟨k1, v1⟩ := hd
      by_cases h : k1 = k
      · subst h
        simp [alistInsert] at hw
        rcases hw with ⟨h1, h2⟩ | hw
        · exact Or.inl ⟨h1, h2⟩
        · exact Or.inr (List.mem_cons_of_mem _ hw)
      · simp [alistInsert, h] at hw
        rcases hw with ⟨h1, h2⟩ | hw
        · subst h1; subst h2
          exact Or.inr (List.mem_cons_self _ _)
        · rcases ih hw with h1 | h1
          · exact Or.inl h1
          · exact Or.inr (List.mem_cons_of_mem _ h1)

theorem updateTickerDetailsMap_cons (d : TickerDetails) (tl : List TickerDetails)
    (s : TrackerState) :
    updateTickerDetailsMap (d :: tl) s =
      updateTickerDetailsMap tl
        (if d.market = "BTCINR_insta" then s
         else { s with ticker_details_map := alistInsert s.ticker_details_map d.market d }) := by
  by_cases h : d.market = "BTCINR_insta" <;> simp [updateTickerDetailsMap, h]

theorem updateMarketDetailsMap_cons (d : MarketDetails) (tl : List MarketDetails)
    (s : TrackerState) :
    updateMarketDetailsMap (d :: tl) s =
      updateMarketDetailsMap tl
        { s with
          market_details_map := alistInsert s.market_details_map d.coindcx_name d,
          market_pairs_map := alistInsert s.market_pairs_map d.coindcx_name d.pair } := rfl

theorem updateTickerDetailsMap_frame_other (ds : List TickerDetails) (s : TrackerState) :
    (updateTickerDetailsMap ds s).market_details_map = s.market_details_map ∧
      (updateTickerDetailsMap ds s).market_pairs_map = s.market_pairs_map ∧
      (updateTickerDetailsMap ds s).order_book_map = s.order_book_map := by
  induction ds generalizing s with
  | nil => exact ⟨rfl, rfl, rfl⟩
  | cons d tl ih =>
      rw [updateTickerDetailsMap_cons]
      by_cases h : d.market = "BTCINR_insta"
      · simp only [h, if_pos]
        exact ih s
      · simp only [h, if_neg, not_false_iff]
        exact ih _

theorem updateTickerDetailsMap_frame_keys (ds : List TickerDetails) (s : TrackerState)
    (k : String) (hk : k ∉ ds.map TickerDetails.market) :
    alistFind (updateTickerDetailsMap ds s).ticker_details_map k =
      alistFind s.ticker_details_map k := by
  induction ds generalizing s with
  | nil => rfl
  | cons d tl ih =>
      simp only [List.map_cons, List.mem_cons] at hk
      push_neg at hk
      rw [updateTickerDetailsMap_cons]
      by_cases h : d.market = "BTCINR_insta"
      · simp only [h, if_pos]
        exact ih s hk.2
      · simp only [h, if_neg, not_false_iff]
        rw [ih _ hk.2]
        simp only [alistFind_insert]
        rw [if_neg (fun hh => hk.1 hh.symm)]

theorem updateTickerDetailsMap_insta_frame (ds : List TickerDetails) (s : TrackerState) :
    alistFind (updateTickerDetailsMap ds s).ticker_details_map "BTCINR_insta" =
      alistFind s.ticker_details_map "BTCINR_insta" := by
  induction ds generalizing s with
  | nil => rfl
  | cons d tl ih =>
      rw [updateTickerDetailsMap_cons]
      by_cases h : d.market = "BTCINR_insta"
      · simp only [h, if_pos]
        exact ih s
      · simp only [h, if_neg, not_false_iff]
        rw [ih _]
        simp only [alistFind_insert]
        rw [if_neg h]

theorem updateTickerDetailsMap_values (ds : List TickerDetails) (s : TrackerState)
    (hs : ∀ td ∈ getAllTickerData s, td.market ≠ "BTCINR_insta") :
    ∀ td ∈ getAllTickerData (updateTickerDetailsMap ds s), td.market ≠ "BTCINR_insta" := by
  induction ds generalizing s with
  | nil => exact hs
  | cons d tl ih =>
      rw [updateTickerDetailsMap_cons]
      by_cases h : d.market = "BTCINR_insta"
      · simp only [h, if_pos]
        exact ih s hs
      · simp only [h, if_neg, not_false_iff]
        refine ih _ ?_
        intro td htd
        simp only [getAllTickerData, List.mem_map] at htd
        obtain ⟨⟨a, w⟩, hmem, hw⟩ := htd
        rcases alistInsert_mem _ _ _ _ _ hmem with ⟨_, hv⟩ | hold
        · rw [← hw]
          rw [show w = d from hv]
          exact h
        · refine hs td ?_
          simp only [getAllTickerData, List.mem_map]
          exact ⟨(a, w), hold, hw⟩

theorem updateMarketDetailsMap_pairs_mem (ds : List MarketDetails) (s : TrackerState)
    (k : String) :
    (alistFind (updateMarketDetailsMap ds s).market_pairs_map k).isSome ↔
      k ∈ ds.map MarketDetails.coindcx_name ∨
        (alistFind s.market_pairs_map k).isSome := by
  induction ds generalizing s with
  | nil => simp [updateMarketDetailsMap]
  | cons d tl ih =>
      rw [updateMarketDetailsMap_cons, ih]
      by_cases h : d.coindcx_name = k
      · simp [alistFind_insert, h]
      · simp only [alistFind_insert, if_neg h, List.map_cons, List.mem_cons]
        constructor
        · rintro (h1 | h1)
          · exact Or.inl (Or.inr h1)
          · exact Or.inr h1
        · rintro ((h1 | h1) | h1)
          · exact absurd h1.symm h
          · exact Or.inl h1
          · exact Or.inr h1

theorem updateMarketDetailsMap_frame (ds : List MarketDetails) (s : TrackerState)
    (k : String) (hk : k ∉ ds.map MarketDetails.coindcx_name) :
    alistFind (updateMarketDetailsMap ds s).market_details_map k =
        alistFind s.market_details_map k ∧
      alistFind (updateMarketDetailsMap ds s).market_pairs_map k =
        alistFind s.market_pairs_map k := by
  induction ds generalizing s with
  | nil => exact ⟨rfl, rfl⟩
  | cons d tl ih =>
      simp only [List.map_cons, List.mem_cons] at hk
      push_neg at hk
      rw [updateMarketDetailsMap_cons]
      obtain ⟨ih1, ih2⟩ := ih _ hk.2
      rw [ih1, ih2]
      simp only [alistFind_insert]
      rw [if_neg (fun hh => hk.1 hh.symm), if_neg (fun hh => hk.1 hh.symm)]
      exact ⟨rfl, rfl⟩

theorem mapExcept_cons_ok {α β : Type} {f : α → Except Unit β} {x : α}
    {xs : List α} {ys : List β} (h : mapExcept f (x :: xs) = Except.ok ys) :
    ∃ y tl, f x = Except.ok y ∧ mapExcept f xs = Except.ok tl ∧ ys = y :: tl := by
  cases hf : f x with
  | error e => simp [mapExcept, hf] at h
  | ok y =>
      cases hr : mapExcept f xs with
      | error e => simp [mapExcept, hf, hr] at h
      | ok tl =>
          simp only [mapExcept, hf, hr, Except.ok.injEq] at h
          exact ⟨y, tl, rfl, rfl, h.symm⟩

theorem getStrE_ok {j : Json} {k s : String} (h : getStrE j k = Except.ok s) :
    getField j k = some (Json.jstr s) := by
  unfold getStrE at h
  cases hf : getField j k with
  | none => rw [hf] at h; exact absurd h (by simp)
  | some v =>
      rw [hf] at h
      cases v <;> simp_all

theorem exBind_ok {α β : Type} {x : Except Unit α} {f : α → Except Unit β}
    {b : β} : exBind x f = Except.ok b ↔ ∃ a, x = Except.ok a ∧ f a = Except.ok b := by
  cases x <;> simp [exBind]

theorem parseMarketItem_name {item : Json} {d : MarketDetails}
    (h : parseMarketItem item = Except.ok d) :
    getField item "coindcx_name" = some (Json.jstr d.coindcx_name) := by
  unfold parseMarketItem at h
  simp only [exBind_ok] at h
  obtain ⟨cn, hcn, h⟩ := h
  obtain ⟨v2, _, h⟩ := h
  obtain ⟨v3, _, h⟩ := h
  obtain ⟨v4, _, h⟩ := h
  obtain ⟨v5, _, h⟩ := h
  obtain ⟨v6, _, h⟩ := h
  obtain ⟨v7, _, h⟩ := h
  obtain ⟨v8, _, h⟩ := h
  obtain ⟨v9, _, h⟩ := h
  obtain ⟨v10, _, h⟩ := h
  obtain ⟨v11, _, h⟩ := h
  obtain ⟨v12, _, h⟩ := h
  obtain ⟨v13, _, h⟩ := h
  obtain ⟨v14, _, h⟩ := h
  obtain ⟨v15, _, h⟩ := h
  obtain ⟨v16, _, h⟩ := h
  obtain ⟨v17, _, h⟩ := h
  obtain ⟨v18, _, h⟩ := h
  rw [Except.ok.injEq] at h
  subst h
  exact getStrE_ok hcn

theorem parseMarketDetails_names {l : List Json} {ds : List MarketDetails}
    (h : mapExcept parseMarketItem l = Except.ok ds) :
    ds.map MarketDetails.coindcx_name = l.filterMap itemCoindcxName := by
  induction l generalizing ds with
  | nil =>
      simp only [mapExcept, Except.ok.injEq] at h
      subst h
      rfl
  | cons x xs ih =>
      obtain ⟨y, tl, hx, hr, hys⟩ := mapExcept_cons_ok h
      subst hys
      simp only [List.map_cons, List.filterMap_cons, itemCoindcxName,
        parseMarketItem_name hx, ih hr]

theorem collectSide_clean (fs : List (String × Json)) (acc : List (String × String))
    (h : fs.all (fun p => p.2.isStr) = true) : (collectSide fs acc).2 = false := by
  induction fs generalizing acc with
  | nil => rfl
  | cons pr tl ih =>
      obtain ⟨price, q⟩ := pr
      simp only [List.all_cons, Bool.and_eq_true] at h
      cases q with
      | jstr s => exact ih _ h.2
      | jnull => exact Bool.noConfusion h.1
      | jbool b => exact Bool.noConfusion h.1
      | jnum n => exact Bool.noConfusion h.1
      | jarr l => exact Bool.noConfusion h.1
      | jobj o => exact Bool.noConfusion h.1

theorem parseSide_clean (o : Option Json) (h : sideClean o = true) :
    (parseSide o).2 = false := by
  cases o with
  | none => rfl
  | some v =>
      cases v with
      | jobj fs => exact collectSide_clean fs [] h
      | jnull => rfl
      | jbool b => rfl
      | jnum n => rfl
      | jstr s => rfl
      | jarr l => rfl

theorem tickerFieldProj_parse (f : TickerField) (item : Json) :
    tickerFieldProj f (parseTickerItem item) =
      tickerStrField item (tickerFieldKey f) (tickerFieldDflt f) := by
  cases f <;> rfl

/-- C1: the spec (§4.4, §7, §9) requires a query for a market name with no
entry in the pair index to return an explicit "unknown market" result.  The
code does not: `handleDataRequest` skips its whole body when the lookup
fails and returns the default-constructed (null) json — a silently empty
response with no error marker and no order book — and leaves the state
untouched.  This evaluates the embedded code at the failing input. -/
theorem unknownMarket_returns_silent_null :
    alistFind TrackerState.empty.market_pairs_map "nonexistent-pair" = none ∧
      handleDataRequest "nonexistent-pair" none 0 TrackerState.empty =
        (Json.jnull, TrackerState.empty) ∧
      handleDataRequest "nonexistent-pair" (some (Except.ok obDocGood)) 0
          TrackerState.empty =
        (Json.jnull, TrackerState.empty) :=
  ⟨rfl, rfl, rfl⟩

/-- C2 counterexample: a failed refresh attempt does not always leave the
stores unchanged.  An order-book fetch returning a non-empty body whose
parse fails still writes an empty order book for the pair: starting from
empty stores, the order-book store gains an entry. -/
theorem failed_orderbook_parse_mutates_store :
    getOrderBook "B-BTC_INR" (some (Except.error ())) TrackerState.empty ≠
        TrackerState.empty ∧
      (getOrderBook "B-BTC_INR" (some (Except.error ())) TrackerState.empty).order_book_map =
        [("B-BTC_INR", OrderBook.empty)] := by
  constructor
  · decide
  · rfl

/-- C2 as amended: a transport failure (empty body) leaves every store
unchanged for all three fetch paths; a market or ticker refresh whose parse
fails leaves every store unchanged (the exception aborts before any update);
but an order-book fetch with a non-empty body always overwrites that pair's
entry with the parsed (possibly empty or partial) book, leaving the other
three stores unchanged. -/
theorem failed_refresh_preserves_stores :
    (∀ s : TrackerState, refreshMarketData none s = s) ∧
    (∀ s : TrackerState, refreshTickerData none s = s) ∧
    (∀ (p : String) (s : TrackerState), getOrderBook p none s = s) ∧
    (∀ s : TrackerState, refreshMarketData (some (Except.error ())) s = s) ∧
    (∀ s : TrackerState, refreshTickerData (some (Except.error ())) s = s) ∧
    (∀ (s : TrackerState) (j : Json), parseMarketDetails j = Except.error () →
      refreshMarketData (some (Except.ok j)) s = s) ∧
    (∀ (p : String) (raw : Except Unit Json) (s : TrackerState),
      (getOrderBook p (some raw) s).market_details_map = s.market_details_map ∧
      (getOrderBook p (some raw) s).ticker_details_map = s.ticker_details_map ∧
      (getOrderBook p (some raw) s).market_pairs_map = s.market_pairs_map ∧
      (getOrderBook p (some raw) s).order_book_map =
        alistInsert s.order_book_map p (parseOrderBook raw).1) := by
  refine ⟨fun s => rfl, fun s => rfl, fun p s => rfl, fun s => rfl, fun s => rfl,
    ?_, fun p raw s => ⟨rfl, rfl, rfl, rfl⟩⟩
  intro s j h
  simp [refreshMarketData, h]

theorem failed_refresh_preserves_stores_witness :
    parseMarketDetails badMktDoc = Except.error () ∧
      refreshMarketData (some (Except.ok badMktDoc)) sSample = sSample ∧
      refreshMarketData none sSample = sSample :=
  ⟨rfl, failed_refresh_preserves_stores.2.2.2.2.2.1 sSample badMktDoc rfl,
   failed_refresh_preserves_stores.1 sSample⟩

/-- C3 counterexample: an iteration of the background refresh loop does not
fetch the market-detail document at all.  With a valid market document
available, the iteration prescribed by the spec puts "BTCINR" in the pair
index, while the source's loop body (which only calls `refreshTickerData`)
leaves the pair index empty — the two disagree at this concrete input. -/
theorem background_loop_never_refreshes_markets_cex :
    (backgroundRefreshIteration (some (Except.ok emptyTickerDoc))
        TrackerState.empty).market_pairs_map = [] ∧
      (backgroundRefreshIterationSpec (some (Except.ok mktDocA))
          (some (Except.ok emptyTickerDoc)) TrackerState.empty).market_pairs_map =
        [("BTCINR", "B-BTC_INR")] ∧
      backgroundRefreshIteration (some (Except.ok emptyTickerDoc))
          TrackerState.empty ≠
        backgroundRefreshIterationSpec (some (Except.ok mktDocA))
          (some (Except.ok emptyTickerDoc)) TrackerState.empty := by
  refine ⟨rfl, ?_, ?_⟩
  · decide
  · decide

/-- C3 as amended: each iteration of the periodic background loop performs
only the ticker fetch — on success it bulk-updates the ticker store, and on
a failed fetch or parse it is a no-op — and it never touches the market
store, the pair index, or the order-book store.  The market-detail document
is fetched once at startup, outside the loop. -/
theorem background_loop_only_refreshes_tickers :
    (∀ (f : Option (Except Unit Json)) (s : TrackerState),
      (backgroundRefreshIteration f s).market_details_map = s.market_details_map ∧
      (backgroundRefreshIteration f s).market_pairs_map = s.market_pairs_map ∧
      (backgroundRefreshIteration f s).order_book_map = s.order_book_map) ∧
    (∀ s : TrackerState, backgroundRefreshIteration none s = s) ∧
    (∀ s : TrackerState, backgroundRefreshIteration (some (Except.error ())) s = s) ∧
    (∀ (j : Json) (s : TrackerState),
      backgroundRefreshIteration (some (Except.ok j)) s =
        updateTickerDetailsMap (parseTickerDetails j) s) := by
  refine ⟨?_, fun s => rfl, fun s => rfl, fun j s => rfl⟩
  intro f s
  cases f with
  | none => exact ⟨rfl, rfl, rfl⟩
  | some raw =>
      cases raw with
      | error e => exact ⟨rfl, rfl, rfl⟩
      | ok j => exact updateTickerDetailsMap_frame_other (parseTickerDetails j) s

/-- C4 counterexample: the same ticker field value arriving as the JSON
number 1234.5 and as the string "1234.5" does NOT produce identical stored
text: the number goes through `std::to_string(double)` and is stored as
"1234.500000", while the string is stored verbatim as "1234.5". -/
theorem number_vs_string_ticker_text_differs :
    (parseTickerDetails tickNumDoc).map TickerDetails.last_price =
        ["1234.500000"] ∧
      (parseTickerDetails tickStrDoc).map TickerDetails.last_price =
        ["1234.5"] ∧
      (parseTickerDetails tickNumDoc).map TickerDetails.last_price ≠
        (parseTickerDetails tickStrDoc).map TickerDetails.last_price := by
  refine ⟨?_, rfl, ?_⟩
  · decide
  · decide

/-- C4 as amended: a ticker field arriving as a JSON number v is stored as
the fixed six-decimal `std::to_string` rendering of v, and the same field
arriving as a string is stored verbatim; the two stored texts therefore
coincide only when the string already equals that six-decimal rendering
(e.g. "1234.500000"), not for the plain decimal "1234.5". -/
theorem ticker_number_normalization (f : TickerField) (item : Json) (q : ℚ)
    (s : String) :
    (getField item (tickerFieldKey f) = some (Json.jnum q) →
      tickerFieldProj f (parseTickerItem item) = cppToStringDouble q) ∧
    (getField item (tickerFieldKey f) = some (Json.jstr s) →
      tickerFieldProj f (parseTickerItem item) = s) := by
  constructor
  · intro h
    rw [tickerFieldProj_parse, tickerStrField, h]
  · intro h
    rw [tickerFieldProj_parse, tickerStrField, h]

theorem ticker_number_normalization_witness :
    tickerFieldProj TickerField.lastPrice
        (parseTickerItem (Json.jobj [("last_price", Json.jnum q1234p5)])) =
      cppToStringDouble q1234p5 ∧
    tickerFieldProj TickerField.lastPrice
        (parseTickerItem (Json.jobj [("last_price", Json.jstr "1234.5")])) =
      "1234.5" :=
  ⟨(ticker_number_normalization TickerField.lastPrice
      (Json.jobj [("last_price", Json.jnum q1234p5)]) q1234p5 "1234.5").1 rfl,
   (ticker_number_normalization TickerField.lastPrice
      (Json.jobj [("last_price", Json.jstr "1234.5")]) q1234p5 "1234.5").2 rfl⟩

/-- C5: the spec requires the assembled response to contain whichever pieces
are present, in particular a cached ticker record.  The code never attaches
the ticker: `addTickerDetails` exists but `handleDataRequest` does not call
it (the previous revision of this handler did), so with a known pair whose
ticker is cached, a successful order-book fetch yields a response that
carries the order book yet omits `ticker_details`.  This evaluates the
embedded code at the failing input. -/
theorem response_omits_present_ticker :
    alistFind sTickerOnly.ticker_details_map "BTCINR" = some tdSample ∧
      jsonHasKey
        (handleDataRequest "BTCINR" (some (Except.ok obDocGood)) 0 sTickerOnly).1
        "ticker_details" = false ∧
      jsonHasKey
        (handleDataRequest "BTCINR" (some (Except.ok obDocGood)) 0 sTickerOnly).1
        "order_book" = true ∧
      jsonHasKey
        (handleDataRequest "BTCINR" (some (Except.ok obDocGood)) 0 sTickerOnly).1
        "pair" = true :=
  ⟨rfl, rfl, rfl, rfl⟩

/-- C6: a ticker record for the excluded insta-settlement market
"BTCINR_insta" is never written by any sequence of ticker refreshes — the
key stays exactly as it was — and, from any store not containing such a
record, it never appears in `getAllTickerData` output even when the fetched
documents contain it. -/
theorem insta_market_never_listed
    (fetches : List (Option (Except Unit Json))) (s : TrackerState)
    (hs : ∀ td ∈ getAllTickerData s, td.market ≠ "BTCINR_insta") :
    (∀ td ∈ getAllTickerData
        (fetches.foldl (fun st f => refreshTickerData f st) s),
      td.market ≠ "BTCINR_insta") ∧
    (∀ ds : List TickerDetails,
      alistFind (updateTickerDetailsMap ds s).ticker_details_map "BTCINR_insta" =
        alistFind s.ticker_details_map "BTCINR_insta") := by
  refine ⟨?_, fun ds => updateTickerDetailsMap_insta_frame ds s⟩
  induction fetches generalizing s with
  | nil => exact hs
  | cons f tl ih =>
      simp only [List.foldl_cons]
      refine ih _ ?_
      cases f with
      | none => exact hs
      | some raw =>
          cases raw with
          | error e => exact hs
          | ok j => exact updateTickerDetailsMap_values (parseTickerDetails j) s hs

theorem insta_market_never_listed_witness :
    parseTickerItem instaItem ∉
      getAllTickerData
        ([some (Except.ok tickerDocInsta)].foldl
          (fun st f => refreshTickerData f st) TrackerState.empty) := by
  intro hmem
  exact
    (insta_market_never_listed [some (Except.ok tickerDocInsta)]
          TrackerState.empty (by simp [getAllTickerData, TrackerState.empty])).1
      (parseTickerItem instaItem) hmem rfl

/-- C7: for every valid market-detail document (one whose parse succeeds),
starting from empty stores, parsing it, storing the batch, and listing all
pairs yields exactly the canonical pair names present in the document: a
name is listed iff some document item carries it as `coindcx_name`. -/
theorem market_roundtrip_pairs (j : Json) (ds : List MarketDetails)
    (h : parseMarketDetails j = Except.ok ds) (name : String) :
    name ∈ getAllPairs (updateMarketDetailsMap ds TrackerState.empty) ↔
      name ∈ docPairNames j := by
  unfold parseMarketDetails at h
  have hn := parseMarketDetails_names h
  simp only [getAllPairs]
  rw [alistFind_mem_keys, updateMarketDetailsMap_pairs_mem, docPairNames, ← hn]
  simp [TrackerState.empty, alistFind]

theorem market_roundtrip_pairs_witness :
    parseMarketDetails mktDocA = Except.ok [mdA] ∧
      "BTCINR" ∈ getAllPairs (updateMarketDetailsMap [mdA] TrackerState.empty) := by
  have h : parseMarketDetails mktDocA = Except.ok [mdA] := rfl
  exact ⟨h, (market_roundtrip_pairs mktDocA [mdA] h "BTCINR").mpr (by decide)⟩

/-- C8: the order-book parser is total and tolerant: on a well-formed
document lacking the `bids` key the bids side is empty, lacking the `asks`
key the asks side is empty; lacking `bids` with a clean remainder no error is
reported at all; and a body on which the decode throws yields the empty
order book with the parse error reported, rather than an escaping
exception. -/
theorem orderbook_parser_tolerance :
    (∀ j : Json, getField j "bids" = none →
      (parseOrderBook (Except.ok j)).1.bids = []) ∧
    (∀ j : Json, getField j "asks" = none →
      (parseOrderBook (Except.ok j)).1.asks = []) ∧
    (∀ j : Json, getField j "bids" = none → sideClean (getField j "asks") = true →
      parseOrderBook (Except.ok j) =
        ({ bids := [], asks := (parseSide (getField j "asks")).1 }, false)) ∧
    parseOrderBook (Except.error ()) = (OrderBook.empty, true) := by
  refine ⟨?_, ?_, ?_, rfl⟩
  · intro j h
    simp [parseOrderBook, parseSide, h]
  · intro j h
    simp only [parseOrderBook]
    by_cases hb : (parseSide (getField j "bids")).2 = true
    · rw [if_pos hb]
    · rw [if_neg hb]
      simp [parseSide, h]
  · intro j h hclean
    have hb : parseSide (getField j "bids") = ([], false) := by
      simp [parseSide, h]
    simp only [parseOrderBook, hb]
    simp [parseSide_clean _ hclean]

theorem orderbook_parser_tolerance_witness :
    (parseOrderBook (Except.ok obDocAsksOnly)).1.bids = [] ∧
      (parseOrderBook (Except.ok obDocBidsOnly)).1.asks = [] ∧
      parseOrderBook (Except.ok obDocAsksOnly) =
        ({ bids := [],
           asks := (parseSide (getField obDocAsksOnly "asks")).1 }, false) :=
  ⟨orderbook_parser_tolerance.1 obDocAsksOnly rfl,
   orderbook_parser_tolerance.2.1 obDocBidsOnly rfl,
   orderbook_parser_tolerance.2.2.1 obDocAsksOnly rfl rfl⟩

/-- C9: a bulk store update only writes the keys occurring in the batch.
Every market-store, pair-index or ticker-store entry whose key does not
occur in the batch reads exactly as before the update, so entries absent
from the latest document persist — refreshes never delete. -/
theorem bulk_update_frame :
    (∀ (ds : List MarketDetails) (s : TrackerState) (k : String),
      k ∉ ds.map MarketDetails.coindcx_name →
        alistFind (updateMarketDetailsMap ds s).market_details_map k =
            alistFind s.market_details_map k ∧
          alistFind (updateMarketDetailsMap ds s).market_pairs_map k =
            alistFind s.market_pairs_map k) ∧
    (∀ (ds : List TickerDetails) (s : TrackerState) (k : String),
      k ∉ ds.map TickerDetails.market →
        alistFind (updateTickerDetailsMap ds s).ticker_details_map k =
          alistFind s.ticker_details_map k) :=
  ⟨fun ds s k hk => updateMarketDetailsMap_frame ds s k hk,
   fun ds s k hk => updateTickerDetailsMap_frame_keys ds s k hk⟩

theorem bulk_update_frame_witness :
    alistFind (updateMarketDetailsMap [mdSample] sSample).market_pairs_map
        "BTCINR" = alistFind sSample.market_pairs_map "BTCINR" ∧
      alistFind
          (updateTickerDetailsMap [{ tdSample with market := "ETHINR" }] sSample).ticker_details_map
          "BTCINR" =
        alistFind sSample.ticker_details_map "BTCINR" :=
  ⟨(bulk_update_frame.1 [mdSample] sSample "BTCINR" (by decide)).2,
   bulk_update_frame.2 [{ tdSample with market := "ETHINR" }] sSample "BTCINR"
     (by decide)⟩

/-- C10: a ticker document item whose field is present but neither a JSON
number nor a JSON string still yields a record — no item is ever dropped
(the parse maps items one-to-one) — with that field left at its default:
the empty string for the seven normalized fields except the 24h change
whose default is "0", the empty string for `market` when it is not a
string, and 0 for `timestamp` when it is not a number. -/
theorem ticker_wrongtyped_field_defaults :
    (∀ j : Json, (parseTickerDetails j).length = (jsonItems j).length) ∧
    (∀ (j item : Json), item ∈ jsonItems j →
      parseTickerItem item ∈ parseTickerDetails j) ∧
    (∀ (f : TickerField) (item v : Json),
      getField item (tickerFieldKey f) = some v → v.isNum = false →
        v.isStr = false →
          tickerFieldProj f (parseTickerItem item) = tickerFieldDflt f) ∧
    (∀ (item v : Json), getField item "market" = some v → v.isStr = false →
      (parseTickerItem item).market = "") ∧
    (∀ (item v : Json), getField item "timestamp" = some v → v.isNum = false →
      (parseTickerItem item).timestamp = 0) := by
  refine ⟨?_, ?_, ?_, ?_, ?_⟩
  · intro j
    simp [parseTickerDetails]
  · intro j item h
    exact List.mem_map_of_mem _ h
  · intro f item v hf hn hs
    rw [tickerFieldProj_parse, tickerStrField, hf]
    cases v <;> simp_all [Json.isNum, Json.isStr]
  · intro item v hf hs
    simp only [parseTickerItem]
    rw [hf]
    cases v <;> simp_all [Json.isStr]
  · intro item v hf hn
    simp only [parseTickerItem]
    rw [hf]
    cases v <;> simp_all [Json.isNum]

theorem ticker_wrongtyped_field_defaults_witness :
    tickerFieldProj TickerField.bid (parseTickerItem wrongTypedItem) = "" ∧
      (parseTickerItem wrongTypedItem).market = "" ∧
      (parseTickerItem wrongTypedItem).timestamp = 0 :=
  ⟨ticker_wrongtyped_field_defaults.2.2.1 TickerField.bid wrongTypedItem
      Json.jnull rfl rfl rfl,
   ticker_wrongtyped_field_defaults.2.2.2.1 wrongTypedItem (Json.jnum 5) rfl rfl,
   ticker_wrongtyped_field_defaults.2.2.2.2 wrongTypedItem (Json.jstr "x") rfl rfl⟩
